import Mathlib

/-!
Shallow embedding of the meeting-coordinator core of
`src/js/background.js` (classes `Meetings`, `Meeting`, `Badge`),
with theorems settling the specification claims about it.

The `port` / channel handle is an opaque external object that none of the
claims' logic inspects, so it is omitted from the `Meeting` record.
-/

namespace GoatMeet

/-- The tri-state badge symbol: `Meetings.INACTIVE` / `MUTED` / `UNMUTED`. -/
inductive MState
  | INACTIVE
  | MUTED
  | UNMUTED
deriving DecidableEq, Repr

/-- One tracked meeting (class `Meeting`, `src/js/background.js:285`).
The JS constructor sets `id = null`; the id is always overwritten by
`Meetings.add` before use, so we model it as a `Nat` placeholder `0`. -/
structure Meeting where
  id : Nat
  title : Option String
  active : Bool
  prefer : Bool
  audioMuted : Option Bool
  videoMuted : Option Bool
deriving DecidableEq, Repr

/-- `new Meeting(port)`: fresh field values from the constructor. -/
def Meeting.init : Meeting :=
  { id := 0, title := none, active := false, prefer := false,
    audioMuted := none, videoMuted := none }

/-- The coordinator (class `Meetings`).  The JS `Map<number, Meeting>` keyed
by `meeting.id` is modelled as a list of meetings in insertion order, with
`meeting.id` as the key. -/
structure Meetings where
  nextId : Nat
  meetings : List Meeting
deriving DecidableEq, Repr

/-- `new Meetings()`: `nextId = 0`, empty map. -/
def Meetings.init : Meetings := { nextId := 0, meetings := [] }

/-- `Map.prototype.set`: replace in place when the key exists, else append. -/
def mapSet (l : List Meeting) (meeting : Meeting) : List Meeting :=
  if l.any (fun mt => mt.id == meeting.id) then
    l.map (fun mt => if mt.id == meeting.id then meeting else mt)
  else
    l ++ [meeting]

/-- `get size()`: the number of entries in the map. -/
def Meetings.size (m : Meetings) : Nat := m.meetings.length

/-- `add(meeting)`: `meeting.id = this.nextId++; this.meetings.set(meeting.id, meeting)`. -/
def Meetings.add (m : Meetings) (meeting : Meeting) : Meetings :=
  { nextId := m.nextId + 1,
    meetings := mapSet m.meetings { meeting with id := m.nextId } }

/-- `remove(meeting)`: `this.meetings.delete(meeting.id)`. -/
def Meetings.remove (m : Meetings) (meeting : Meeting) : Meetings :=
  { m with meetings := m.meetings.filter (fun mt => !(mt.id == meeting.id)) }

/-- `get(id)`: lookup by the internal counter key. -/
def Meetings.get (m : Meetings) (id : Nat) : Option Meeting :=
  m.meetings.find? (fun mt => mt.id == id)

/-- `get default()`: forEach over the map, keeping the last meeting whose
`prefer` flag is set. -/
def Meetings.default (m : Meetings) : Option Meeting :=
  m.meetings.foldl (fun ret meeting => if meeting.prefer then some meeting else ret) none

/-- `setDefault(id, value)`: forEach; the meeting whose id matches gets
`prefer = value`; any other meeting with `value && meeting.prefer` is cleared. -/
def Meetings.setDefault (m : Meetings) (id : Nat) (value : Bool) : Meetings :=
  { m with meetings := m.meetings.map (fun meeting =>
      if meeting.id == id then { meeting with prefer := value }
      else if value && meeting.prefer then { meeting with prefer := false }
      else meeting) }

/-- `countMeetings_(property)`: count meetings whose field is truthy. -/
def Meetings.countMeetings (m : Meetings) (property : Meeting → Bool) : Nat :=
  m.meetings.foldl (fun ret meeting => ret + if property meeting then 1 else 0) 0

/-- JS truthiness of a nullable boolean field: only `true` is truthy;
`null` (not yet reported) and `false` are falsy. -/
def optTruthy : Option Bool → Bool
  | some true => true
  | _ => false

/-- `get numActive()`. -/
def Meetings.numActive (m : Meetings) : Nat :=
  m.countMeetings (fun mt => mt.active)

/-- `get numAudioMuted()`. -/
def Meetings.numAudioMuted (m : Meetings) : Nat :=
  m.countMeetings (fun mt => optTruthy mt.audioMuted)

/-- `get numVideoMuted()`. -/
def Meetings.numVideoMuted (m : Meetings) : Nat :=
  m.countMeetings (fun mt => optTruthy mt.videoMuted)

/-- `get state()`. -/
def Meetings.state (m : Meetings) : MState :=
  if m.size = 0 then MState.INACTIVE
  else if m.numAudioMuted = m.size then MState.MUTED
  else MState.UNMUTED

/-- `get summary()`. -/
def Meetings.summary (m : Meetings) : String :=
  let size := m.size
  let numAudioMuted := m.numAudioMuted
  if size = 0 then
    "No meetings found. Please reload Google Meet pages to connect."
  else if size = numAudioMuted then
    "All meetings are muted."
  else if numAudioMuted = 0 then
    "No meetings are muted."
  else
    toString size ++ " active meetings; " ++ toString numAudioMuted ++ " are muted."

/-- Observable events of `processMeetings_`: a meeting receiving the
autofocus signal, or the forwarded command (the `callback`). -/
inductive Ev
  | autofocus (id : Nat)
  | command (id : Nat)
deriving DecidableEq, Repr

/-- The `forEach` loop body of `processMeetings_`, carrying the `focused`
flag: the first eligible meeting gets the autofocus signal, every eligible
meeting gets the callback. -/
def processLoop (eligible : Meeting → Bool) : Bool → List Meeting → List Ev
  | _, [] => []
  | focused, meeting :: rest =>
    if eligible meeting then
      if focused then
        Ev.command meeting.id :: processLoop eligible true rest
      else
        Ev.autofocus meeting.id :: Ev.command meeting.id :: processLoop eligible true rest
    else
      processLoop eligible focused rest

/-- `processMeetings_(callback)`: the trace of autofocus signals and
callback invocations, in program order. -/
def Meetings.processMeetings (m : Meetings) : List Ev :=
  match m.default with
  | some prefer => [Ev.autofocus prefer.id, Ev.command prefer.id]
  | none =>
    let numActive := m.numActive
    processLoop (fun meeting => numActive == 0 || meeting.active) false m.meetings

/-- An `update` message payload `{title, audioMuted, videoMuted}`.
A `none` field models an absent / `undefined` value. -/
structure UpdateMsg where
  title : Option String
  audioMuted : Option Bool
  videoMuted : Option Bool
deriving DecidableEq, Repr

/-- `title.replace(/^Meet - /, '')`: strip one leading `"Meet - "`. -/
def stripMeetTitle (t : String) : String :=
  if t.take 7 = "Meet - " then t.drop 7 else t

/-- `message_joined()`: mark the meeting active (badge always refreshed). -/
def Meeting.message_joined (mt : Meeting) : Meeting :=
  { mt with active := true }

/-- `message_update({title, audioMuted, videoMuted})`: returns the updated
meeting and whether `badge.update()` was invoked (the debounce flag). -/
def Meeting.message_update (mt : Meeting) (msg : UpdateMsg) : Meeting × Bool :=
  let mt1 := match msg.title with
    | some t => if t = "" then mt else { mt with title := some (stripMeetTitle t) }
    | none => mt
  let upd := mt1.audioMuted != msg.audioMuted || mt1.videoMuted != msg.videoMuted
  ({ mt1 with audioMuted := msg.audioMuted, videoMuted := msg.videoMuted }, upd)

/-- The badge settings object passed to `Badge.set` by `Badge.update`;
`none` models a field left `undefined` (the corresponding browser API is
not called). -/
structure BadgeSettings where
  icon : Option String
  title : Option String
  popup : Option String
  text : Option String
  color : Option String
deriving DecidableEq, Repr

/-- `get popupAction()`: the popup URL as a function of the configured
action-button behavior and the registry state.  The JS `switch` falls
through from `default:` into the `+popup` cases. -/
def popupAction (actionButtonBehavior : String) (m : Meetings) : String :=
  let popup := "html/control.html"
  if actionButtonBehavior = "popup" then popup
  else if actionButtonBehavior = "toggle-audio" ∨ actionButtonBehavior = "focus" ∨
      actionButtonBehavior = "mute-audio" then ""
  else if (m.default).isSome then ""
  else if m.numActive > 1 ∨ (m.numActive = 0 ∧ m.size > 1) then popup
  else ""

/-- `Badge.update()`: the settings object it derives from the registry
state and hands to `Badge.set` (the pure projection; the push of a `list`
snapshot to an attached popup is an external side effect). -/
def badgeUpdate (actionButtonBehavior : String) (m : Meetings) : BadgeSettings :=
  match m.state with
  | MState.INACTIVE =>
      { icon := some "inactive", title := some m.summary,
        popup := some "html/inactive.html", text := some "", color := none }
  | MState.UNMUTED =>
      let numMuted := m.numAudioMuted
      let text := if numMuted = 0 then toString m.size
                  else toString numMuted ++ "/" ++ toString m.size
      { icon := some "mic-on", title := some m.summary,
        popup := some (popupAction actionButtonBehavior m), text := some text,
        color := some "#219653" }
  | MState.MUTED =>
      { icon := some "mic-off", title := some m.summary,
        popup := some (popupAction actionButtonBehavior m),
        text := some (toString m.size), color := some "#d92f25" }

/-- The operations of the system that touch the registry or a tracked
session, as dispatched by `onConnect`, `Meeting.disconnect`,
`onInternalPageMessage` (`default` command), `onContextMenu`
(`clear-default`), and the `Meeting.message_*` handlers. -/
inductive SysOp
  | connect
  | disconnect (id : Nat)
  | setPreferred (id : Nat) (value : Bool)
  | clearDefault
  | joined (id : Nat)
  | update (id : Nat) (msg : UpdateMsg)
deriving DecidableEq, Repr

/-- Apply a handler to the meeting with the given id (the JS handlers
mutate the `Meeting` object held in the map). -/
def onMeeting (m : Meetings) (id : Nat) (f : Meeting → Meeting) : Meetings :=
  { m with meetings := m.meetings.map (fun mt => if mt.id == id then f mt else mt) }

/-- One system step on the registry state. -/
def applySysOp (m : Meetings) : SysOp → Meetings
  | SysOp.connect => m.add Meeting.init
  | SysOp.disconnect id => m.remove { Meeting.init with id := id }
  | SysOp.setPreferred id value => m.setDefault id value
  | SysOp.clearDefault =>
      match m.default with
      | some meeting => onMeeting m meeting.id (fun mt => { mt with prefer := false })
      | none => m
  | SysOp.joined id => onMeeting m id Meeting.message_joined
  | SysOp.update id msg => onMeeting m id (fun mt => (mt.message_update msg).1)

/-- Run a sequence of system steps. -/
def runOps (m : Meetings) (ops : List SysOp) : Meetings :=
  ops.foldl applySysOp m

/-- The ids `add` hands out along a run: each `connect` assigns the
current `nextId`. -/
def assignedIds (m : Meetings) : List SysOp → List Nat
  | [] => []
  | SysOp.connect :: rest => m.nextId :: assignedIds (applySysOp m SysOp.connect) rest
  | op :: rest => assignedIds (applySysOp m op) rest

/-! Helper lemmas about the embedded operations. -/

theorem foldl_count (p : Meeting → Bool) :
    ∀ (l : List Meeting) (n : Nat),
      l.foldl (fun ret meeting => ret + if p meeting then 1 else 0) n
        = n + (l.filter p).length := by
  intro l
  induction l with
  | nil => intro n; simp
  | cons a t ih =>
    intro n
    cases hp : p a
    · simp [List.filter_cons, hp, ih]
    · simp [List.filter_cons, hp, ih]
      omega

theorem countMeetings_eq (m : Meetings) (p : Meeting → Bool) :
    m.countMeetings p = (m.meetings.filter p).length := by
  unfold Meetings.countMeetings
  rw [foldl_count]
  omega

theorem foldl_default_nopref :
    ∀ (l : List Meeting) (acc : Option Meeting),
      (∀ mt ∈ l, mt.prefer = false) →
      l.foldl (fun ret meeting => if meeting.prefer then some meeting else ret) acc = acc := by
  intro l
  induction l with
  | nil => intro acc _; rfl
  | cons a t ih =>
    intro acc h
    have ha : a.prefer = false := h a (List.mem_cons_self a t)
    simp only [List.foldl_cons, ha, if_neg Bool.false_ne_true]
    exact ih acc (fun mt hmt => h mt (List.mem_cons_of_mem a hmt))

theorem foldl_default_eq_find :
    ∀ l : List Meeting,
      (l.filter (fun mt => mt.prefer)).length ≤ 1 →
      l.foldl (fun ret meeting => if meeting.prefer then some meeting else ret) none
        = l.find? (fun mt => mt.prefer) := by
  intro l
  induction l with
  | nil => intro _; rfl
  | cons a t ih =>
    intro h
    cases ha : a.prefer with
    | true =>
      have ht : ∀ mt ∈ t, mt.prefer = false := by
        intro mt hmt
        by_contra hc
        have hmem : mt ∈ t.filter (fun mt => mt.prefer) :=
          List.mem_filter.mpr ⟨hmt, by simpa using hc⟩
        have : 2 ≤ ((a :: t).filter (fun mt => mt.prefer)).length := by
          rw [List.filter_cons]
          simp only [ha, if_pos]
          have := List.length_pos.mpr (List.ne_nil_of_mem hmem)
          simp only [List.length_cons]
          omega
        omega
      simp only [List.foldl_cons, ha, if_pos, List.find?_cons, ha]
      exact foldl_default_nopref t (some a) ht
    | false =>
      have hlen : (t.filter (fun mt => mt.prefer)).length ≤ 1 := by
        rw [List.filter_cons] at h
        simp only [ha] at h
        simpa using h
      simp only [List.foldl_cons, ha, if_neg Bool.false_ne_true, List.find?_cons]
      rw [ih hlen]

theorem default_eq_find (m : Meetings)
    (h : (m.meetings.filter (fun mt => mt.prefer)).length ≤ 1) :
    m.default = m.meetings.find? (fun mt => mt.prefer) :=
  foldl_default_eq_find m.meetings h

/-- The spec's description of the trace over a target set: the first
session in insertion order receives the autofocus signal; all targets
receive the command. -/
def specTrace : List Meeting → List Ev
  | [] => []
  | t :: rest => Ev.autofocus t.id :: Ev.command t.id :: rest.map (fun mt => Ev.command mt.id)

/-- Modelled from the spec: the selection algorithm of section 4.1
(`selectTargets`), written from the spec's words to compare against
`Meetings.processMeetings`. -/
def selectTargetsSpec (m : Meetings) : List Ev :=
  match m.meetings.find? (fun mt => mt.prefer) with
  | some p => [Ev.autofocus p.id, Ev.command p.id]
  | none =>
    let targets := if m.numActive = 0 then m.meetings
                   else m.meetings.filter (fun mt => mt.active)
    specTrace targets

theorem processLoop_focused (eligible : Meeting → Bool) :
    ∀ l : List Meeting,
      processLoop eligible true l = (l.filter eligible).map (fun mt => Ev.command mt.id) := by
  intro l
  induction l with
  | nil => rfl
  | cons a t ih =>
    cases he : eligible a <;> simp [processLoop, List.filter_cons, he, ih]

theorem processLoop_unfocused (eligible : Meeting → Bool) :
    ∀ l : List Meeting,
      processLoop eligible false l = specTrace (l.filter eligible) := by
  intro l
  induction l with
  | nil => rfl
  | cons a t ih =>
    cases he : eligible a
    · simp [processLoop, List.filter_cons, he, ih]
    · simp [processLoop, List.filter_cons, he, processLoop_focused, specTrace]

/-- Convenience constructor for concrete meetings in examples. -/
def mkMeeting (id : Nat) (active prefer : Bool) (am vm : Option Bool) : Meeting :=
  { id := id, title := none, active := active, prefer := prefer,
    audioMuted := am, videoMuted := vm }

/-- C1: for every registry state satisfying the registry invariant (at
most one preferred session), the broadcast selection algorithm
`processMeetings_` behaves exactly as the spec describes: a preferred
session is the sole target and receives the autofocus signal before the
command; otherwise with no active session every session is a target, else
exactly the active sessions are; the first target in insertion order
receives the autofocus signal and every target receives the command. -/
theorem selection_algorithm_matches_spec (m : Meetings)
    (h : (m.meetings.filter (fun mt => mt.prefer)).length ≤ 1) :
    m.processMeetings = selectTargetsSpec m := by
  unfold Meetings.processMeetings selectTargetsSpec
  rw [default_eq_find m h]
  cases hf : m.meetings.find? (fun mt => mt.prefer) with
  | some p => rfl
  | none =>
    simp only
    rw [processLoop_unfocused]
    by_cases hA : m.numActive = 0
    · have he : (fun meeting => (m.numActive == 0 || meeting.active)) =
          (fun _ : Meeting => true) := by
        funext meeting
        simp [hA]
      rw [he, if_pos hA, List.filter_true]
    · have he : ∀ meeting : Meeting,
          (m.numActive == 0 || meeting.active) = meeting.active := by
        intro meeting
        have : (m.numActive == 0) = false := by simpa using hA
        simp [this]
      rw [if_neg hA, List.filter_congr (fun mt _ => he mt)]

/-- Witness for C1: a registry with three sessions, one active, none
preferred; the single active session is the sole target. -/
theorem selection_algorithm_matches_spec_witness :
    ((({ nextId := 3,
         meetings :=
           [{ id := 0, title := none, active := false, prefer := false,
              audioMuted := none, videoMuted := none },
            { id := 1, title := none, active := true, prefer := false,
              audioMuted := some true, videoMuted := none },
            { id := 2, title := none, active := false, prefer := false,
              audioMuted := none, videoMuted := none }] } : Meetings).meetings.filter
        (fun mt => mt.prefer)).length ≤ 1) ∧
    ({ nextId := 3,
       meetings :=
         [{ id := 0, title := none, active := false, prefer := false,
            audioMuted := none, videoMuted := none },
          { id := 1, title := none, active := true, prefer := false,
            audioMuted := some true, videoMuted := none },
          { id := 2, title := none, active := false, prefer := false,
            audioMuted := none, videoMuted := none }] } : Meetings).processMeetings =
      selectTargetsSpec
        { nextId := 3,
          meetings :=
            [{ id := 0, title := none, active := false, prefer := false,
               audioMuted := none, videoMuted := none },
             { id := 1, title := none, active := true, prefer := false,
               audioMuted := some true, videoMuted := none },
             { id := 2, title := none, active := false, prefer := false,
               audioMuted := none, videoMuted := none }] } :=
  ⟨by decide, selection_algorithm_matches_spec _ (by decide)⟩

/-- C2 counterexample: a registry holding a single preferred session with
id 0; calling `setDefault(5, true)` — id 5 absent — clears that session's
preferred flag, so the call is not a silent no-op. -/
theorem setPreferred_absent_not_noop :
    (({ nextId := 1, meetings := [mkMeeting 0 false true none none] } : Meetings).meetings.all
        (fun mt => !(mt.id == 5)) = true) ∧
    ({ nextId := 1, meetings := [mkMeeting 0 false true none none] } : Meetings).meetings.map
        (fun mt => mt.prefer) = [true] ∧
    (({ nextId := 1, meetings := [mkMeeting 0 false true none none] } : Meetings).setDefault 5
        true).meetings.map (fun mt => mt.prefer) = [false] := by
  decide

/-- C2 (amended): calling `setPreferred(id, value)` with an absent `id` is
a silent no-op when `value` is false, but when `value` is true it clears
the preferred flag on every session (leaving no session preferred) while
changing nothing else. -/
theorem setPreferred_absent_behavior (m : Meetings) (id : Nat) (value : Bool)
    (h : m.meetings.all (fun mt => !(mt.id == id)) = true) :
    (value = false → m.setDefault id value = m) ∧
    (value = true → m.setDefault id value =
      { m with meetings := m.meetings.map (fun mt => { mt with prefer := false }) }) := by
  have h' : ∀ mt ∈ m.meetings, (mt.id == id) = false := by
    intro mt hmt
    have := List.all_eq_true.mp h mt hmt
    simpa using this
  constructor
  · intro hv
    subst hv
    unfold Meetings.setDefault
    have hmap : m.meetings.map (fun meeting =>
        if meeting.id == id then { meeting with prefer := false }
        else if false && meeting.prefer then { meeting with prefer := false }
        else meeting) = m.meetings := by
      rw [List.map_congr_left (g := fun a => a), List.map_id']
      intro a ha
      simp [h' a ha]
    rw [hmap]
  · intro hv
    subst hv
    unfold Meetings.setDefault
    rw [Meetings.mk.injEq]
    refine ⟨rfl, ?_⟩
    apply List.map_congr_left
    intro a ha
    obtain ⟨i, t, ac, p, am, vm⟩ := a
    have hfa : (i == id) = false := h' ⟨i, t, ac, p, am, vm⟩ ha
    cases p <;> simp [hfa]

/-- Witness for the amended C2: a two-session registry; `setDefault(7, true)`
with id 7 absent clears the preferred flag of session 0. -/
theorem setPreferred_absent_behavior_witness :
    (({ nextId := 2,
        meetings := [mkMeeting 0 false true none none,
                     mkMeeting 1 true false none none] } : Meetings).meetings.all
        (fun mt => !(mt.id == 7)) = true) ∧
    ({ nextId := 2,
       meetings := [mkMeeting 0 false true none none,
                    mkMeeting 1 true false none none] } : Meetings).setDefault 7 true =
      { nextId := 2,
        meetings := [mkMeeting 0 false false none none,
                     mkMeeting 1 true false none none] } :=
  ⟨by decide,
   ((setPreferred_absent_behavior
      { nextId := 2,
        meetings := [mkMeeting 0 false true none none,
                     mkMeeting 1 true false none none] } 7 true (by decide)).2 rfl).trans
     (by decide)⟩

/-! Registry invariants along system runs. -/

/-- All keys in the map are below the `nextId` counter. -/
def idsBounded (m : Meetings) : Prop := ∀ mt ∈ m.meetings, mt.id < m.nextId

/-- How many sessions carry the preferred flag. -/
def countPrefer (m : Meetings) : Nat :=
  (m.meetings.filter (fun mt => mt.prefer)).length

/-- The registry invariant: bounded keys, strictly increasing ids in
insertion order, at most one preferred session. -/
def goodState (m : Meetings) : Prop :=
  idsBounded m ∧ (m.meetings.map (fun mt => mt.id)).Pairwise (· < ·) ∧ countPrefer m ≤ 1

theorem goodState_init : goodState Meetings.init := by
  refine ⟨?_, ?_, ?_⟩ <;> simp [Meetings.init, idsBounded, countPrefer]

theorem length_filter_mono {α : Type} (p q : α → Bool) (hpq : ∀ a, p a = true → q a = true) :
    ∀ l : List α, (l.filter p).length ≤ (l.filter q).length := by
  intro l
  induction l with
  | nil => simp
  | cons a t ih =>
    rw [List.filter_cons, List.filter_cons]
    cases hp : p a
    · cases hq : q a
      · simpa using ih
      · simp only [if_pos rfl, if_neg Bool.false_ne_true, List.length_cons]
        exact Nat.le_succ_of_le ih
    · rw [hpq a hp]
      simpa using ih

theorem length_filter_map {α β : Type} (f : α → β) (p : β → Bool) (l : List α) :
    ((l.map f).filter p).length = (l.filter (fun a => p (f a))).length := by
  induction l with
  | nil => rfl
  | cons a t ih => cases hp : p (f a) <;> simp [List.filter_cons, hp, ih]

theorem ids_map (l : List Meeting) (f : Meeting → Meeting)
    (hid : ∀ mt, (f mt).id = mt.id) :
    (l.map f).map (fun mt => mt.id) = l.map (fun mt => mt.id) := by
  rw [List.map_map]
  exact List.map_congr_left (fun a _ => hid a)

theorem idsBounded_map (m : Meetings) (f : Meeting → Meeting)
    (hid : ∀ mt, (f mt).id = mt.id) (hb : idsBounded m) :
    idsBounded { m with meetings := m.meetings.map f } := by
  intro mt hmt
  obtain ⟨a, ha, rfl⟩ := List.mem_map.mp hmt
  show (f a).id < m.nextId
  rw [hid a]
  exact hb a ha

theorem countPrefer_map_le (m : Meetings) (f : Meeting → Meeting)
    (hpref : ∀ mt, (f mt).prefer = true → mt.prefer = true) :
    countPrefer { m with meetings := m.meetings.map f } ≤ countPrefer m := by
  show ((m.meetings.map f).filter _).length ≤ _
  rw [length_filter_map]
  exact length_filter_mono _ _ hpref m.meetings

theorem goodState_map (m : Meetings) (f : Meeting → Meeting)
    (hid : ∀ mt, (f mt).id = mt.id)
    (hpref : ∀ mt, (f mt).prefer = true → mt.prefer = true)
    (h : goodState m) :
    goodState { m with meetings := m.meetings.map f } := by
  obtain ⟨hb, hpw, hcp⟩ := h
  refine ⟨idsBounded_map m f hid hb, ?_, ?_⟩
  · show ((m.meetings.map f).map (fun mt => mt.id)).Pairwise (· < ·)
    rw [ids_map m.meetings f hid]
    exact hpw
  · exact Nat.le_trans (countPrefer_map_le m f hpref) hcp

theorem setDefault_fn_id (i : Nat) (v : Bool) (a : Meeting) :
    (if a.id == i then { a with prefer := v }
     else if v && a.prefer then { a with prefer := false } else a).id = a.id := by
  cases h1 : (a.id == i) <;> cases h2 : (v && a.prefer) <;> simp [h1, h2]

theorem onMeeting_fn_id (i : Nat) (f : Meeting → Meeting)
    (hf : ∀ mt, (f mt).id = mt.id) (a : Meeting) :
    (if a.id == i then f a else a).id = a.id := by
  cases h : (a.id == i) <;> simp [h, hf a]

theorem message_update_keeps (mt : Meeting) (msg : UpdateMsg) :
    ((mt.message_update msg).1).id = mt.id ∧
    ((mt.message_update msg).1).prefer = mt.prefer ∧
    ((mt.message_update msg).1).active = mt.active := by
  unfold Meeting.message_update
  cases htt : msg.title with
  | none => simp
  | some t => by_cases ht : t = "" <;> simp [ht]

theorem message_update_sets (mt : Meeting) (msg : UpdateMsg) :
    ((mt.message_update msg).1).audioMuted = msg.audioMuted ∧
    ((mt.message_update msg).1).videoMuted = msg.videoMuted := by
  unfold Meeting.message_update
  cases htt : msg.title with
  | none => simp
  | some t => by_cases ht : t = "" <;> simp [ht]

theorem message_update_flag (mt : Meeting) (msg : UpdateMsg) :
    (mt.message_update msg).2 =
      (mt.audioMuted != msg.audioMuted || mt.videoMuted != msg.videoMuted) := by
  unfold Meeting.message_update
  cases htt : msg.title with
  | none => simp
  | some t => by_cases ht : t = "" <;> simp [ht]

theorem add_eq_append (m : Meetings) (meeting : Meeting) (hb : idsBounded m) :
    m.add meeting = { nextId := m.nextId + 1,
                      meetings := m.meetings ++ [{ meeting with id := m.nextId }] } := by
  unfold Meetings.add mapSet
  have hany : (m.meetings.any
      (fun mt => mt.id == ({ meeting with id := m.nextId } : Meeting).id)) = false := by
    rw [List.any_eq_false]
    intro mt hmt
    have := hb mt hmt
    simp only [Bool.not_eq_true, beq_eq_false_iff_ne]
    exact Nat.ne_of_lt this
  simp [hany]

theorem nextId_mono (m : Meetings) (op : SysOp) : m.nextId ≤ (applySysOp m op).nextId := by
  cases op with
  | connect => exact Nat.le_succ _
  | disconnect i => exact Nat.le_refl _
  | setPreferred i v => exact Nat.le_refl _
  | clearDefault =>
    show m.nextId ≤ (match m.default with
      | some meeting => onMeeting m meeting.id (fun mt => { mt with prefer := false })
      | none => m).nextId
    cases m.default <;> exact Nat.le_refl _
  | joined i => exact Nat.le_refl _
  | update i msg => exact Nat.le_refl _

theorem setDefault_true_eq (m : Meetings) (j : Nat) :
    (m.setDefault j true).meetings =
      m.meetings.map (fun mt => { mt with prefer := mt.id == j }) := by
  unfold Meetings.setDefault
  dsimp only
  apply List.map_congr_left
  intro a _
  obtain ⟨i, t, ac, p, am, vm⟩ := a
  cases hij : (i == j) <;> cases p <;> simp [hij]

theorem setDefault_false_eq (m : Meetings) (j : Nat) :
    (m.setDefault j false).meetings =
      m.meetings.map (fun mt => if mt.id == j then { mt with prefer := false } else mt) := by
  unfold Meetings.setDefault
  dsimp only
  apply List.map_congr_left
  intro a _
  cases hij : (a.id == j) <;> simp [hij]

theorem count_id_matches_le_one (j : Nat) :
    ∀ l : List Meeting, l.Pairwise (fun a b => a.id ≠ b.id) →
      (l.filter (fun mt => mt.id == j)).length ≤ 1 := by
  intro l
  induction l with
  | nil => simp
  | cons a t ih =>
    intro h
    obtain ⟨hab, ht⟩ := List.pairwise_cons.mp h
    rw [List.filter_cons]
    cases hij : (a.id == j)
    · simpa using ih ht
    · have haj : a.id = j := by simpa using hij
      have hz : t.filter (fun mt => mt.id == j) = [] := by
        rw [List.filter_eq_nil_iff]
        intro mt hmt
        have hne : a.id ≠ mt.id := hab mt hmt
        simp only [Bool.not_eq_true, beq_eq_false_iff_ne, ne_eq]
        intro hc
        exact hne (by rw [haj, hc])
      simp [hz]

theorem pairwise_id_ne (m : Meetings)
    (hpw : (m.meetings.map (fun mt => mt.id)).Pairwise (· < ·)) :
    m.meetings.Pairwise (fun a b => a.id ≠ b.id) :=
  (List.pairwise_map.mp hpw).imp (fun h => Nat.ne_of_lt h)

theorem goodState_apply (m : Meetings) (op : SysOp) (h : goodState m) :
    goodState (applySysOp m op) := by
  obtain ⟨hb, hpw, hcp⟩ := h
  cases op with
  | connect =>
    show goodState (m.add Meeting.init)
    rw [add_eq_append m Meeting.init hb]
    refine ⟨?_, ?_, ?_⟩
    · intro mt hmt
      rcases List.mem_append.mp hmt with h1 | h2
      · exact Nat.lt_succ_of_lt (hb mt h1)
      · rw [List.mem_singleton] at h2
        subst h2
        exact Nat.lt_succ_self _
    · show ((m.meetings ++ [{ Meeting.init with id := m.nextId }]).map
          (fun mt : Meeting => mt.id)).Pairwise (· < ·)
      rw [List.map_append]
      rw [List.pairwise_append]
      refine ⟨hpw, List.pairwise_singleton _ _, ?_⟩
      intro a ha b hb2
      obtain ⟨mt, hmt, rfl⟩ := List.mem_map.mp ha
      rw [List.map_singleton, List.mem_singleton] at hb2
      subst hb2
      exact hb mt hmt
    · show ((m.meetings ++ [{ Meeting.init with id := m.nextId }]).filter
          (fun mt : Meeting => mt.prefer)).length ≤ 1
      rw [List.filter_append]
      have : ([({ Meeting.init with id := m.nextId } : Meeting)].filter
          (fun mt => mt.prefer)) = [] := rfl
      rw [this, List.append_nil]
      exact hcp
  | disconnect i =>
    refine ⟨?_, ?_, ?_⟩
    · intro mt hmt
      exact hb mt (List.mem_of_mem_filter hmt)
    · show (((m.meetings.filter _).map (fun mt => mt.id))).Pairwise (· < ·)
      exact List.Pairwise.sublist (List.Sublist.map _ (List.filter_sublist _)) hpw
    · show (((m.meetings.filter _).filter (fun mt => mt.prefer))).length ≤ 1
      exact Nat.le_trans
        (List.Sublist.length_le (List.Sublist.filter _ (List.filter_sublist _))) hcp
  | setPreferred i v =>
    cases v with
    | false =>
      apply goodState_map m
        (fun meeting => if meeting.id == i then { meeting with prefer := false }
         else if false && meeting.prefer then { meeting with prefer := false }
         else meeting)
        (setDefault_fn_id i false) ?_ ⟨hb, hpw, hcp⟩
      intro mt hmt
      cases hii : (mt.id == i)
      · simpa [hii] using hmt
      · simp [hii] at hmt
    | true =>
      refine ⟨?_, ?_, ?_⟩
      · exact idsBounded_map m
          (fun meeting => if meeting.id == i then { meeting with prefer := true }
           else if true && meeting.prefer then { meeting with prefer := false }
           else meeting)
          (setDefault_fn_id i true) hb
      · show (((m.setDefault i true).meetings).map (fun mt => mt.id)).Pairwise (· < ·)
        rw [setDefault_true_eq]
        rw [ids_map m.meetings (fun mt => { mt with prefer := mt.id == i })
          (fun mt => rfl)]
        exact hpw
      · show countPrefer (m.setDefault i true) ≤ 1
        unfold countPrefer
        rw [setDefault_true_eq, length_filter_map]
        exact count_id_matches_le_one i m.meetings (pairwise_id_ne m hpw)
  | clearDefault =>
    show goodState (match m.default with
      | some meeting => onMeeting m meeting.id (fun mt => { mt with prefer := false })
      | none => m)
    cases m.default with
    | none => exact ⟨hb, hpw, hcp⟩
    | some meeting =>
      apply goodState_map m
        (fun mt => if mt.id == meeting.id then { mt with prefer := false } else mt)
        ?_ ?_ ⟨hb, hpw, hcp⟩
      · intro mt
        cases hii : (mt.id == meeting.id) <;> simp [hii]
      · intro mt hmt
        cases hii : (mt.id == meeting.id)
        · simpa [hii] using hmt
        · simp [hii] at hmt
  | joined i =>
    apply goodState_map m
      (fun mt => if mt.id == i then Meeting.message_joined mt else mt)
      ?_ ?_ ⟨hb, hpw, hcp⟩
    · intro mt
      cases hii : (mt.id == i) <;> simp [hii, Meeting.message_joined]
    · intro mt hmt
      cases hii : (mt.id == i) <;>
        simpa [hii, Meeting.message_joined] using hmt
  | update i msg =>
    apply goodState_map m
      (fun mt => if mt.id == i then (mt.message_update msg).1 else mt)
      ?_ ?_ ⟨hb, hpw, hcp⟩
    · intro mt
      cases hii : (mt.id == i) <;> simp [hii, (message_update_keeps mt msg).1]
    · intro mt hmt
      cases hii : (mt.id == i)
      · simpa [hii] using hmt
      · simp [hii] at hmt
        rw [(message_update_keeps mt msg).2.1] at hmt
        exact hmt

theorem goodState_runOps (ops : List SysOp) :
    ∀ m : Meetings, goodState m → goodState (runOps m ops) := by
  induction ops with
  | nil => intro m h; exact h
  | cons op rest ih =>
    intro m h
    exact ih (applySysOp m op) (goodState_apply m op h)

theorem setDefault_fn_active (i : Nat) (v : Bool) (a : Meeting) :
    (if a.id == i then { a with prefer := v }
     else if v && a.prefer then { a with prefer := false } else a).active = a.active := by
  cases h1 : (a.id == i) <;> cases h2 : (v && a.prefer) <;> simp [h1, h2]

theorem idsBounded_apply (m : Meetings) (op : SysOp) (hb : idsBounded m) :
    idsBounded (applySysOp m op) := by
  cases op with
  | connect =>
    show idsBounded (m.add Meeting.init)
    rw [add_eq_append m Meeting.init hb]
    intro mt hmt
    rcases List.mem_append.mp hmt with h1 | h2
    · exact Nat.lt_succ_of_lt (hb mt h1)
    · rw [List.mem_singleton] at h2
      subst h2
      exact Nat.lt_succ_self _
  | disconnect i =>
    intro mt hmt
    exact hb mt (List.mem_of_mem_filter hmt)
  | setPreferred i v =>
    exact idsBounded_map m
      (fun meeting => if meeting.id == i then { meeting with prefer := v }
       else if v && meeting.prefer then { meeting with prefer := false }
       else meeting)
      (setDefault_fn_id i v) hb
  | clearDefault =>
    show idsBounded (match m.default with
      | some meeting => onMeeting m meeting.id (fun mt => { mt with prefer := false })
      | none => m)
    cases m.default with
    | none => exact hb
    | some meeting =>
      exact idsBounded_map m
        (fun mt => if mt.id == meeting.id then { mt with prefer := false } else mt)
        (fun mt => by cases hii : (mt.id == meeting.id) <;> simp [hii]) hb
  | joined i =>
    exact idsBounded_map m
      (fun mt => if mt.id == i then Meeting.message_joined mt else mt)
      (fun mt => by cases hii : (mt.id == i) <;> simp [hii, Meeting.message_joined]) hb
  | update i msg =>
    exact idsBounded_map m
      (fun mt => if mt.id == i then (mt.message_update msg).1 else mt)
      (fun mt => by
        cases hii : (mt.id == i) <;> simp [hii, (message_update_keeps mt msg).1]) hb

theorem active_preserved_map (m : Meetings) (sid : Nat) (f : Meeting → Meeting)
    (hid : ∀ mt, (f mt).id = mt.id)
    (hact : ∀ mt, mt.active = true → (f mt).active = true)
    (h : ∀ mt ∈ m.meetings, mt.id = sid → mt.active = true) :
    ∀ mt ∈ m.meetings.map f, mt.id = sid → mt.active = true := by
  intro mt hmt hids
  obtain ⟨a, ha, rfl⟩ := List.mem_map.mp hmt
  rw [hid a] at hids
  exact hact a (h a ha hids)

theorem active_preserved_step (m : Meetings) (op : SysOp) (sid : Nat)
    (hb : idsBounded m) (hlt : sid < m.nextId)
    (h : ∀ mt ∈ m.meetings, mt.id = sid → mt.active = true) :
    ∀ mt ∈ (applySysOp m op).meetings, mt.id = sid → mt.active = true := by
  cases op with
  | connect =>
    show ∀ mt ∈ (m.add Meeting.init).meetings, mt.id = sid → mt.active = true
    rw [add_eq_append m Meeting.init hb]
    intro mt hmt hid
    rcases List.mem_append.mp hmt with h1 | h2
    · exact h mt h1 hid
    · rw [List.mem_singleton] at h2
      subst h2
      exact absurd hid (by simp; omega)
  | disconnect i =>
    intro mt hmt hid
    exact h mt (List.mem_of_mem_filter hmt) hid
  | setPreferred i v =>
    exact active_preserved_map m sid
      (fun meeting => if meeting.id == i then { meeting with prefer := v }
       else if v && meeting.prefer then { meeting with prefer := false }
       else meeting)
      (setDefault_fn_id i v)
      (fun a ha => by rw [setDefault_fn_active i v a]; exact ha) h
  | clearDefault =>
    show ∀ mt ∈ (match m.default with
      | some meeting => onMeeting m meeting.id (fun mt => { mt with prefer := false })
      | none => m).meetings, mt.id = sid → mt.active = true
    cases m.default with
    | none => exact h
    | some meeting =>
      exact active_preserved_map m sid
        (fun mt => if mt.id == meeting.id then { mt with prefer := false } else mt)
        (fun mt => by cases hii : (mt.id == meeting.id) <;> simp [hii])
        (fun a ha => by cases hii : (a.id == meeting.id) <;> simp [hii, ha]) h
  | joined i =>
    exact active_preserved_map m sid
      (fun mt => if mt.id == i then Meeting.message_joined mt else mt)
      (fun mt => by cases hii : (mt.id == i) <;> simp [hii, Meeting.message_joined])
      (fun a ha => by
        cases hii : (a.id == i) <;> simp [hii, Meeting.message_joined, ha]) h
  | update i msg =>
    exact active_preserved_map m sid
      (fun mt => if mt.id == i then (mt.message_update msg).1 else mt)
      (fun mt => by
        cases hii : (mt.id == i) <;> simp [hii, (message_update_keeps mt msg).1])
      (fun a ha => by
        cases hii : (a.id == i) <;>
          simp [hii, (message_update_keeps a msg).2.2, ha]) h

theorem active_preserved_run (ops : List SysOp) :
    ∀ (m : Meetings) (sid : Nat), idsBounded m → sid < m.nextId →
      (∀ mt ∈ m.meetings, mt.id = sid → mt.active = true) →
      ∀ mt ∈ (runOps m ops).meetings, mt.id = sid → mt.active = true := by
  induction ops with
  | nil => intro m sid _ _ h; exact h
  | cons op rest ih =>
    intro m sid hb hlt h
    exact ih (applySysOp m op) sid (idsBounded_apply m op hb)
      (Nat.lt_of_lt_of_le hlt (nextId_mono m op))
      (active_preserved_step m op sid hb hlt h)

theorem assignedIds_lb :
    ∀ (ops : List SysOp) (m : Meetings) (a : Nat), a ∈ assignedIds m ops → m.nextId ≤ a := by
  intro ops
  induction ops with
  | nil =>
    intro m a ha
    simp [assignedIds] at ha
  | cons op rest ih =>
    intro m a ha
    cases op with
    | connect =>
      rw [show assignedIds m (SysOp.connect :: rest) =
          m.nextId :: assignedIds (applySysOp m SysOp.connect) rest from rfl] at ha
      rcases List.mem_cons.mp ha with h1 | h2
      · exact Nat.le_of_eq h1.symm
      · exact Nat.le_trans (nextId_mono m SysOp.connect) (ih _ a h2)
    | disconnect i => exact Nat.le_trans (nextId_mono m (SysOp.disconnect i)) (ih _ a ha)
    | setPreferred i v =>
      exact Nat.le_trans (nextId_mono m (SysOp.setPreferred i v)) (ih _ a ha)
    | clearDefault => exact Nat.le_trans (nextId_mono m SysOp.clearDefault) (ih _ a ha)
    | joined i => exact Nat.le_trans (nextId_mono m (SysOp.joined i)) (ih _ a ha)
    | update i msg => exact Nat.le_trans (nextId_mono m (SysOp.update i msg)) (ih _ a ha)

theorem assignedIds_pairwise :
    ∀ (ops : List SysOp) (m : Meetings), (assignedIds m ops).Pairwise (· < ·) := by
  intro ops
  induction ops with
  | nil => intro m; simp [assignedIds]
  | cons op rest ih =>
    intro m
    cases op with
    | connect =>
      rw [show assignedIds m (SysOp.connect :: rest) =
          m.nextId :: assignedIds (applySysOp m SysOp.connect) rest from rfl]
      refine List.Pairwise.cons ?_ (ih _)
      intro a ha
      have hlb := assignedIds_lb rest (applySysOp m SysOp.connect) a ha
      have h2 : (applySysOp m SysOp.connect).nextId = m.nextId + 1 := rfl
      omega
    | disconnect i => exact ih _
    | setPreferred i v => exact ih _
    | clearDefault => exact ih _
    | joined i => exact ih _
    | update i msg => exact ih _

/-- C3: after any sequence of system operations (adds, removes,
setPreferred calls and message handling) from a fresh registry, at most
one session has `preferred = true`; and calling `setPreferred(i, true)`
then `setPreferred(j, true)` with `j` present leaves exactly the sessions
whose id is `j` preferred. -/
theorem at_most_one_preferred (ops : List SysOp) (m : Meetings) (i j : Nat)
    (h : m.meetings.any (fun mt => mt.id == j) = true) :
    countPrefer (runOps Meetings.init ops) ≤ 1 ∧
    ((m.setDefault i true).setDefault j true).meetings.all
      (fun mt => mt.prefer == (mt.id == j)) = true ∧
    ((m.setDefault i true).setDefault j true).meetings.any
      (fun mt => mt.id == j && mt.prefer) = true := by
  refine ⟨(goodState_runOps ops Meetings.init goodState_init).2.2, ?_, ?_⟩
  · rw [List.all_eq_true]
    intro mt hmt
    rw [setDefault_true_eq] at hmt
    obtain ⟨a, _, rfl⟩ := List.mem_map.mp hmt
    simp
  · obtain ⟨a, ha, haj⟩ := List.any_eq_true.mp h
    rw [List.any_eq_true]
    refine ⟨{ a with prefer := a.id == j }, ?_, ?_⟩
    · rw [setDefault_true_eq, setDefault_true_eq, List.map_map]
      exact List.mem_map.mpr ⟨a, ha, rfl⟩
    · simp only [haj, Bool.and_self]

/-- C4: along any run of system operations from a fresh registry, `size`
equals the number of sessions held, the ids in insertion order are
strictly increasing (hence unique), and the ids assigned by successive
adds form a strictly increasing sequence — an id, once assigned, is never
assigned again. -/
theorem ids_unique_monotone (ops : List SysOp) :
    (runOps Meetings.init ops).size = (runOps Meetings.init ops).meetings.length ∧
    ((runOps Meetings.init ops).meetings.map (fun mt => mt.id)).Pairwise (· < ·) ∧
    (assignedIds Meetings.init ops).Pairwise (· < ·) :=
  ⟨rfl, (goodState_runOps ops Meetings.init goodState_init).2.1,
   assignedIds_pairwise ops Meetings.init⟩

/-- C9: once a session's `active` flag is true, no operation of the
system ever resets it while the session exists: from any state with
bounded ids in which some session has id `sid` and every session with id
`sid` is active, after any sequence of operations every session with id
`sid` is still active. -/
theorem active_never_reverts (ops : List SysOp) (m : Meetings) (sid : Nat)
    (hb : m.meetings.all (fun mt => decide (mt.id < m.nextId)) = true)
    (hex : m.meetings.any (fun mt => mt.id == sid) = true)
    (h : m.meetings.all (fun mt => !(mt.id == sid) || mt.active) = true) :
    (runOps m ops).meetings.all (fun mt => !(mt.id == sid) || mt.active) = true := by
  have hb' : idsBounded m := by
    intro mt hmt
    simpa using List.all_eq_true.mp hb mt hmt
  have hlt : sid < m.nextId := by
    obtain ⟨a, ha, haj⟩ := List.any_eq_true.mp hex
    have haj' : a.id = sid := by simpa using haj
    exact haj' ▸ hb' a ha
  have h' : ∀ mt ∈ m.meetings, mt.id = sid → mt.active = true := by
    intro mt hmt hid
    have hall := List.all_eq_true.mp h mt hmt
    simpa [hid] using hall
  rw [List.all_eq_true]
  intro mt hmt
  cases hij : (mt.id == sid)
  · simp
  · have hact := active_preserved_run ops m sid hb' hlt h' mt hmt (by simpa using hij)
    simp [hact]

/-- Witness for C3: two connects, then preferring session 0 and then
session 1 leaves only session 1 preferred. -/
theorem at_most_one_preferred_witness :
    (({ nextId := 2,
        meetings := [mkMeeting 0 false false none none,
                     mkMeeting 1 true false none none] } : Meetings).meetings.any
      (fun mt => mt.id == 1) = true) ∧
    (countPrefer (runOps Meetings.init
        [SysOp.connect, SysOp.connect, SysOp.setPreferred 0 true,
         SysOp.setPreferred 1 true]) ≤ 1 ∧
     (({ nextId := 2,
         meetings := [mkMeeting 0 false false none none,
                      mkMeeting 1 true false none none] } : Meetings).setDefault 0
        true |>.setDefault 1 true).meetings.all
        (fun mt => mt.prefer == (mt.id == 1)) = true ∧
     (({ nextId := 2,
         meetings := [mkMeeting 0 false false none none,
                      mkMeeting 1 true false none none] } : Meetings).setDefault 0
        true |>.setDefault 1 true).meetings.any
        (fun mt => mt.id == 1 && mt.prefer) = true) :=
  ⟨by decide,
   at_most_one_preferred
     [SysOp.connect, SysOp.connect, SysOp.setPreferred 0 true, SysOp.setPreferred 1 true]
     { nextId := 2,
       meetings := [mkMeeting 0 false false none none,
                    mkMeeting 1 true false none none] } 0 1 (by decide)⟩

/-- Witness for C9: session 0 is active; a disconnect of another session,
a preferred-flag change, an update and a fresh connect leave it active. -/
theorem active_never_reverts_witness :
    (({ nextId := 2,
        meetings := [mkMeeting 0 true false none none,
                     mkMeeting 1 false false none none] } : Meetings).meetings.all
      (fun mt => decide (mt.id < 2)) = true) ∧
    (({ nextId := 2,
        meetings := [mkMeeting 0 true false none none,
                     mkMeeting 1 false false none none] } : Meetings).meetings.any
      (fun mt => mt.id == 0) = true) ∧
    (({ nextId := 2,
        meetings := [mkMeeting 0 true false none none,
                     mkMeeting 1 false false none none] } : Meetings).meetings.all
      (fun mt => !(mt.id == 0) || mt.active) = true) ∧
    (runOps { nextId := 2,
              meetings := [mkMeeting 0 true false none none,
                           mkMeeting 1 false false none none] }
        [SysOp.disconnect 1, SysOp.setPreferred 0 true,
         SysOp.update 0 { title := none, audioMuted := some true, videoMuted := none },
         SysOp.connect, SysOp.clearDefault]).meetings.all
      (fun mt => !(mt.id == 0) || mt.active) = true :=
  ⟨by decide, by decide, by decide,
   active_never_reverts
     [SysOp.disconnect 1, SysOp.setPreferred 0 true,
      SysOp.update 0 { title := none, audioMuted := some true, videoMuted := none },
      SysOp.connect, SysOp.clearDefault]
     { nextId := 2,
       meetings := [mkMeeting 0 true false none none,
                    mkMeeting 1 false false none none] } 0
     (by decide) (by decide) (by decide)⟩

/-- C5: the summary string is exactly the no-meetings text when size is 0,
the all-muted text when every session is audio-muted, the none-muted text
when none is, and the interpolated count text otherwise. -/
theorem summary_text (m : Meetings) :
    (m.size = 0 →
      m.summary = "No meetings found. Please reload Google Meet pages to connect.") ∧
    (0 < m.size → m.numAudioMuted = m.size → m.summary = "All meetings are muted.") ∧
    (0 < m.size → m.numAudioMuted = 0 → m.summary = "No meetings are muted.") ∧
    (0 < m.size → m.numAudioMuted ≠ 0 → m.numAudioMuted ≠ m.size →
      m.summary = toString m.size ++ " active meetings; " ++
        toString m.numAudioMuted ++ " are muted.") := by
  simp only [Meetings.summary]
  refine ⟨?_, ?_, ?_, ?_⟩
  · intro h0
    simp [h0]
  · intro hs hm
    rw [if_neg (by omega), if_pos hm.symm]
  · intro hs hm
    rw [if_neg (by omega), if_neg (by omega), if_pos hm]
  · intro hs h1 h2
    rw [if_neg (by omega), if_neg (by omega), if_neg h1]

/-- Witness for C5: three sessions with one audio-muted yield the
interpolated text. -/
theorem summary_text_witness :
    (0 < ({ nextId := 3,
            meetings := [mkMeeting 0 true false (some true) none,
                         mkMeeting 1 true false (some false) none,
                         mkMeeting 2 false false none none] } : Meetings).size ∧
     ({ nextId := 3,
        meetings := [mkMeeting 0 true false (some true) none,
                     mkMeeting 1 true false (some false) none,
                     mkMeeting 2 false false none none] } : Meetings).numAudioMuted ≠ 0 ∧
     ({ nextId := 3,
        meetings := [mkMeeting 0 true false (some true) none,
                     mkMeeting 1 true false (some false) none,
                     mkMeeting 2 false false none none] } : Meetings).numAudioMuted ≠
       ({ nextId := 3,
          meetings := [mkMeeting 0 true false (some true) none,
                       mkMeeting 1 true false (some false) none,
                       mkMeeting 2 false false none none] } : Meetings).size) ∧
    ({ nextId := 3,
       meetings := [mkMeeting 0 true false (some true) none,
                    mkMeeting 1 true false (some false) none,
                    mkMeeting 2 false false none none] } : Meetings).summary =
      "3 active meetings; 1 are muted." :=
  ⟨⟨by decide, by decide, by decide⟩,
   ((summary_text _).2.2.2 (by decide) (by decide) (by decide)).trans (by decide)⟩

/-- C6: an `update` message triggers the badge recomputation exactly when
the message's audioMuted or videoMuted differs from the stored value; in
particular the second of two identical updates never triggers it, and an
update leaving both mute flags unchanged (e.g. changing only the title)
triggers none. -/
theorem update_debounce (mt : Meeting) (msg : UpdateMsg) :
    ((mt.message_update msg).2 = true ↔
      (msg.audioMuted ≠ mt.audioMuted ∨ msg.videoMuted ≠ mt.videoMuted)) ∧
    ((mt.message_update msg).1.message_update msg).2 = false ∧
    (msg.audioMuted = mt.audioMuted → msg.videoMuted = mt.videoMuted →
      (mt.message_update msg).2 = false) := by
  refine ⟨?_, ?_, ?_⟩
  · rw [message_update_flag]
    simp only [Bool.or_eq_true, bne_iff_ne, ne_eq]
    constructor
    · rintro (h | h)
      · exact Or.inl (fun hc => h hc.symm)
      · exact Or.inr (fun hc => h hc.symm)
    · rintro (h | h)
      · exact Or.inl (fun hc => h hc.symm)
      · exact Or.inr (fun hc => h hc.symm)
  · rw [message_update_flag]
    rw [(message_update_sets mt msg).1, (message_update_sets mt msg).2]
    simp
  · intro h1 h2
    rw [message_update_flag, h1, h2]
    simp

/-- Witness for C6: an update that changes only the title (mute flags
unchanged) does not trigger a badge recomputation. -/
theorem update_debounce_witness :
    ((mkMeeting 0 true false (some true) (some false)).message_update
        { title := some "Meet - standup", audioMuted := some true,
          videoMuted := some false }).2 = false :=
  (update_debounce (mkMeeting 0 true false (some true) (some false))
      { title := some "Meet - standup", audioMuted := some true,
        videoMuted := some false }).2.2 (by decide) (by decide)

/-- C7: `remove` is idempotent: removing a meeting whose id is absent
leaves the registry unchanged, and removing the same meeting twice equals
removing it once. -/
theorem remove_idempotent (m : Meetings) (meeting : Meeting) :
    (m.meetings.all (fun mt => !(mt.id == meeting.id)) = true → m.remove meeting = m) ∧
    (m.remove meeting).remove meeting = m.remove meeting := by
  constructor
  · intro h
    unfold Meetings.remove
    have hf : m.meetings.filter (fun mt => !(mt.id == meeting.id)) = m.meetings :=
      List.filter_eq_self.mpr (List.all_eq_true.mp h)
    rw [hf]
  · simp only [Meetings.remove]
    rw [Meetings.mk.injEq]
    refine ⟨rfl, List.filter_eq_self.mpr ?_⟩
    intro a ha
    exact (List.mem_filter.mp ha).2

/-- Witness for C7: removing id 5 from a registry that only holds id 0 is
a no-op. -/
theorem remove_idempotent_witness :
    (({ nextId := 1, meetings := [mkMeeting 0 true false none none] } : Meetings).meetings.all
      (fun mt => !(mt.id == (mkMeeting 5 false false none none).id)) = true) ∧
    ({ nextId := 1, meetings := [mkMeeting 0 true false none none] } : Meetings).remove
        (mkMeeting 5 false false none none) =
      { nextId := 1, meetings := [mkMeeting 0 true false none none] } :=
  ⟨by decide,
   (remove_idempotent { nextId := 1, meetings := [mkMeeting 0 true false none none] }
      (mkMeeting 5 false false none none)).1 (by decide)⟩

/-- C8: in the UNMUTED state the badge shows the mic-on icon, the size or
muted/size count, and the green color; in the MUTED state the mic-off
icon, the size, and the red color. -/
theorem badge_projection (actionButtonBehavior : String) (m : Meetings) :
    (m.state = MState.UNMUTED →
      (badgeUpdate actionButtonBehavior m).icon = some "mic-on" ∧
      (badgeUpdate actionButtonBehavior m).text =
        some (if m.numAudioMuted = 0 then toString m.size
              else toString m.numAudioMuted ++ "/" ++ toString m.size) ∧
      (badgeUpdate actionButtonBehavior m).color = some "#219653") ∧
    (m.state = MState.MUTED →
      (badgeUpdate actionButtonBehavior m).icon = some "mic-off" ∧
      (badgeUpdate actionButtonBehavior m).text = some (toString m.size) ∧
      (badgeUpdate actionButtonBehavior m).color = some "#d92f25") := by
  constructor
  · intro h
    unfold badgeUpdate
    rw [h]
    exact ⟨rfl, rfl, rfl⟩
  · intro h
    unfold badgeUpdate
    rw [h]
    exact ⟨rfl, rfl, rfl⟩

/-- Witness for C8: two sessions with one audio-muted are UNMUTED; the
badge shows mic-on, the "1/2" text and the green color. -/
theorem badge_projection_witness :
    ({ nextId := 2,
       meetings := [mkMeeting 0 true false (some true) none,
                    mkMeeting 1 true false none none] } : Meetings).state =
      MState.UNMUTED ∧
    ((badgeUpdate "popup"
        { nextId := 2,
          meetings := [mkMeeting 0 true false (some true) none,
                       mkMeeting 1 true false none none] }).icon = some "mic-on" ∧
     (badgeUpdate "popup"
        { nextId := 2,
          meetings := [mkMeeting 0 true false (some true) none,
                       mkMeeting 1 true false none none] }).text =
       some (if ({ nextId := 2,
                   meetings := [mkMeeting 0 true false (some true) none,
                                mkMeeting 1 true false none none] } : Meetings).numAudioMuted = 0
             then toString ({ nextId := 2,
                              meetings := [mkMeeting 0 true false (some true) none,
                                           mkMeeting 1 true false none none] } : Meetings).size
             else toString ({ nextId := 2,
                              meetings := [mkMeeting 0 true false (some true) none,
                                           mkMeeting 1 true false none none] } : Meetings).numAudioMuted ++
               "/" ++ toString ({ nextId := 2,
                                  meetings := [mkMeeting 0 true false (some true) none,
                                               mkMeeting 1 true false none none] } : Meetings).size) ∧
     (badgeUpdate "popup"
        { nextId := 2,
          meetings := [mkMeeting 0 true false (some true) none,
                       mkMeeting 1 true false none none] }).color = some "#219653") :=
  ⟨by decide,
   (badge_projection "popup"
      { nextId := 2,
        meetings := [mkMeeting 0 true false (some true) none,
                     mkMeeting 1 true false none none] }).1 (by decide)⟩

/-- C10: a session whose audioMuted is still null counts as not muted, so
a non-empty registry in which no session has reported its mute state has
numAudioMuted 0, state UNMUTED and the none-muted summary. -/
theorem null_mute_counts_unmuted (m : Meetings)
    (hs : 0 < m.size)
    (h : m.meetings.all (fun mt => mt.audioMuted.isNone) = true) :
    m.numAudioMuted = 0 ∧ m.state = MState.UNMUTED ∧
    m.summary = "No meetings are muted." := by
  have h0 : m.numAudioMuted = 0 := by
    rw [Meetings.numAudioMuted, countMeetings_eq, List.length_eq_zero,
      List.filter_eq_nil_iff]
    intro a ha
    have hno := List.all_eq_true.mp h a ha
    cases ham : a.audioMuted with
    | none => simp [ham, optTruthy]
    | some b => simp [ham] at hno
  refine ⟨h0, ?_, ?_⟩
  · unfold Meetings.state
    rw [if_neg (by omega), if_neg (by omega)]
  · simp only [Meetings.summary]
    rw [if_neg (by omega), if_neg (by omega), if_pos h0]

/-- Witness for C10: two sessions, neither having reported a mute state;
the registry is UNMUTED with the none-muted summary. -/
theorem null_mute_counts_unmuted_witness :
    (0 < ({ nextId := 2,
            meetings := [mkMeeting 0 true false none none,
                         mkMeeting 1 false false none none] } : Meetings).size) ∧
    (({ nextId := 2,
        meetings := [mkMeeting 0 true false none none,
                     mkMeeting 1 false false none none] } : Meetings).meetings.all
      (fun mt => mt.audioMuted.isNone) = true) ∧
    (({ nextId := 2,
        meetings := [mkMeeting 0 true false none none,
                     mkMeeting 1 false false none none] } : Meetings).numAudioMuted = 0 ∧
     ({ nextId := 2,
        meetings := [mkMeeting 0 true false none none,
                     mkMeeting 1 false false none none] } : Meetings).state =
       MState.UNMUTED ∧
     ({ nextId := 2,
        meetings := [mkMeeting 0 true false none none,
                     mkMeeting 1 false false none none] } : Meetings).summary =
       "No meetings are muted.") :=
  ⟨by decide, by decide,
   null_mute_counts_unmuted
     { nextId := 2,
       meetings := [mkMeeting 0 true false none none,
                    mkMeeting 1 false false none none] } (by decide) (by decide)⟩

end GoatMeet
